import Mathlib

/-!
Shallow embedding of the TCP multi-client chat relay (`src/MVP/usage.md`,
class `TCPServer`).  The server keeps two JS `Map`s:

* `clients    : connectionId -> {socket, systemId, clientId, registered, buffer}`
* `clientMap  : "systemId.clientId" -> connectionId`

We model both as insertion-ordered association lists (JS `Map` iteration
order is insertion order, and `Map.set` keeps an existing key's position).
A socket is modelled by the single boolean that `sendToClient` consults
(`!socket.destroyed && socket.writable`).  Frame writes are recorded in an
output trace `List (String × Frame)` in the order the code performs them;
`timestamp` and purely informational `message` fields are omitted from the
frame model.  IO side effects (console logging, `socket.destroy`) are not
modelled.
-/

/-- One entry of `this.clients`: the per-connection record created on
accept.  `systemId`/`clientId` start as `null` (here `none`); `writable`
models `!socket.destroyed && socket.writable` as checked by
`sendToClient`. -/
structure ClientRecord where
  systemId : Option String
  clientId : Option String
  registered : Bool
  buffer : String
  writable : Bool
deriving Repr, DecidableEq

/-- The server's mutable routing state: `this.clients` and
`this.clientMap`, as insertion-ordered association lists. -/
structure ServerState where
  clients : List (String × ClientRecord)
  clientMap : List (String × String)
deriving Repr, DecidableEq

/-- `Map.get`: first (unique) binding of a key. -/
def mapLookup {α : Type} : List (String × α) → String → Option α
  | [], _ => none
  | p :: rest, k => if p.1 = k then some p.2 else mapLookup rest k

/-- `Map.has`. -/
def mapHas {α : Type} (l : List (String × α)) (k : String) : Bool :=
  (mapLookup l k).isSome

/-- `Map.set`: update in place if the key exists (keeping its position),
otherwise append. -/
def mapSet {α : Type} : List (String × α) → String → α → List (String × α)
  | [], k, v => [(k, v)]
  | p :: rest, k, v => if p.1 = k then (k, v) :: rest else p :: mapSet rest k v

/-- `Map.delete` (keys are unique, so removing every binding of the key
coincides with removing the one binding). -/
def mapDelete {α : Type} : List (String × α) → String → List (String × α)
  | [], _ => []
  | p :: rest, k => if p.1 = k then mapDelete rest k else p :: mapDelete rest k

/-- In-place mutation of the record stored under a key (JS mutates the
object held in the map, so its position is unchanged). -/
def mapUpdate {α : Type} : List (String × α) → String → (α → α) → List (String × α)
  | [], _, _ => []
  | p :: rest, k, f =>
    if p.1 = k then (p.1, f p.2) :: mapUpdate rest k f else p :: mapUpdate rest k f

/-- One per-identity entry of `clientDetails` in a `client_list` reply;
`systemId`/`clientId` are `undefined` (`none`) when the optional-chained
lookup `client?.systemId` fails. -/
structure ClientDetail where
  fullId : String
  systemId : Option String
  clientId : Option String
deriving Repr, DecidableEq

/-- The server-to-client frames, keyed by their `type` field, carrying the
fields the routing logic produces (timestamps and free-text `message`
fields of informational frames omitted; `error` keeps its message text
since the spec distinguishes error kinds by it). -/
inductive Frame where
  | welcome
  | errorMsg (message : String)
  | registeredOk (fullId : String)
  | clientList (clients : List String) (clientDetails : List ClientDetail) (count : Nat)
  | chatMessage (fromId content : String)
  | privateMessage (fromId content : String)
  | privateSent (toId content : String)
  | clientJoined (systemId clientId fullId : String)
  | clientLeft (systemId clientId fullId : String)
  | pong
  | serverShutdown
deriving Repr, DecidableEq

/-- JS template-literal rendering of a possibly-`null` string field. -/
def jsStr : Option String → String
  | none => "null"
  | some s => s

/-- JS truthiness of an optional string field (`!parsed.content`):
absent and the empty string are both falsy. -/
def present : Option String → Bool
  | none => false
  | some s => s ≠ ""

/-- Embeds `TCPServer.sendToClient`: returns whether the write was
performed, plus the written frame as a trace. -/
def sendToClient (st : ServerState) (connectionId : String) (msg : Frame) :
    Bool × List (String × Frame) :=
  match mapLookup st.clients connectionId with
  | none => (false, [])
  | some c => if c.writable then (true, [(connectionId, msg)]) else (false, [])

/-- Whether a write to this connection would succeed: the condition
`sendToClient` evaluates (connection present and socket writable). -/
def writableB (st : ServerState) (cid : String) : Bool :=
  match mapLookup st.clients cid with
  | some c => c.writable
  | none => false

/-- The `for (const [connectionId, client] of this.clients)` loop of
`TCPServer.broadcastMessage`, recursing over the iteration list. -/
def broadcastList (st : ServerState) (msg : Frame) (excl : Option String) :
    List (String × ClientRecord) → Nat × List (String × Frame)
  | [] => (0, [])
  | p :: rest =>
    if p.2.registered && (some p.1 != excl) then
      let s := sendToClient st p.1 msg
      let r := broadcastList st msg excl rest
      ((if s.1 then 1 else 0) + r.1, s.2 ++ r.2)
    else
      broadcastList st msg excl rest

/-- Embeds `TCPServer.broadcastMessage(message, excludeConnectionId)`:
delivers to every registered connection other than the excluded one,
returning the sent count and the write trace. -/
def broadcastMessage (st : ServerState) (msg : Frame) (excl : Option String) :
    Nat × List (String × Frame) :=
  broadcastList st msg excl st.clients

/-- The identity charset check `/^[a-zA-Z0-9_-]+$/` of
`TCPServer.registerClient`. -/
def isValidIdChar (c : Char) : Bool :=
  c.isAlphanum || c = '_' || c = '-'

/-- A systemId/clientId is valid iff non-empty and drawn from
`[A-Za-z0-9_-]`. -/
def isValidId (s : String) : Bool :=
  s.length > 0 && s.toList.all isValidIdChar

/-- `Array.from(this.clientMap.keys()).sort()`: the identity directory,
lexicographically sorted. -/
def sortedKeys (m : List (String × String)) : List String :=
  (m.map Prod.fst).mergeSort

/-- The `clientList.map(...)` step of `TCPServer.sendClientList`: per
identity, look its connection up and read that record's current
`systemId`/`clientId` (optional chaining yields `none` on a dangling
entry). -/
def detailFor (st : ServerState) (fullId : String) : ClientDetail :=
  match mapLookup st.clientMap fullId with
  | none => { fullId := fullId, systemId := none, clientId := none }
  | some connId =>
    match mapLookup st.clients connId with
    | none => { fullId := fullId, systemId := none, clientId := none }
    | some c => { fullId := fullId, systemId := c.systemId, clientId := c.clientId }

/-- The full `clientDetails` sequence. -/
def clientDetailsOf (st : ServerState) (clientList : List String) : List ClientDetail :=
  clientList.map (detailFor st)

/-- Embeds `TCPServer.sendClientList`. -/
def sendClientList (st : ServerState) (connectionId : String) : List (String × Frame) :=
  let clientList := sortedKeys st.clientMap
  let clientDetails := clientDetailsOf st clientList
  (sendToClient st connectionId
    (Frame.clientList clientList clientDetails clientList.length)).2

/-- Embeds `TCPServer.sendPrivateMessage`: resolve the target (the map
entry must exist and point at a live connection), reject self-messaging,
deliver to the target, and confirm to the sender only if that delivery
write succeeded.  The state is not mutated. -/
def sendPrivateMessage (st : ServerState)
    (senderConnectionId senderFullId targetFullId content : String) :
    List (String × Frame) :=
  match mapLookup st.clientMap targetFullId with
  | none =>
    (sendToClient st senderConnectionId
      (Frame.errorMsg ("Client " ++ targetFullId ++ " not found or offline"))).2
  | some targetConnectionId =>
    if !(mapHas st.clients targetConnectionId) then
      (sendToClient st senderConnectionId
        (Frame.errorMsg ("Client " ++ targetFullId ++ " not found or offline"))).2
    else if senderFullId = targetFullId then
      (sendToClient st senderConnectionId
        (Frame.errorMsg "Cannot send private message to yourself")).2
    else
      let d := sendToClient st targetConnectionId
        (Frame.privateMessage senderFullId content)
      if d.1 then
        d.2 ++ (sendToClient st senderConnectionId
          (Frame.privateSent targetFullId content)).2
      else
        d.2

/-- The success tail of `TCPServer.registerClient` (after validation and
the duplicate check): mutate the record, insert the mapping, reply
`registered`, send the client list, broadcast `client_joined` to the
others. -/
def registerFinish (st : ServerState) (connectionId systemId clientId fullId : String) :
    ServerState × List (String × Frame) :=
  let st1 : ServerState :=
    { clients := mapUpdate st.clients connectionId (fun c =>
        { c with systemId := some systemId, clientId := some clientId, registered := true }),
      clientMap := mapSet st.clientMap fullId connectionId }
  let o1 := (sendToClient st1 connectionId (Frame.registeredOk fullId)).2
  let o2 := sendClientList st1 connectionId
  let o3 := (broadcastMessage st1
    (Frame.clientJoined systemId clientId fullId) (some connectionId)).2
  (st1, o1 ++ o2 ++ o3)

/-- Embeds `TCPServer.registerClient`: charset validation, duplicate
check against a *different live* connection, release of an own or stale
mapping, then `registerFinish`. -/
def registerClient (st : ServerState) (connectionId systemId clientId : String) :
    ServerState × List (String × Frame) :=
  match mapLookup st.clients connectionId with
  | none => (st, [])
  | some _ =>
    if !(isValidId systemId && isValidId clientId) then
      (st, (sendToClient st connectionId (Frame.errorMsg
        "systemId and clientId can only contain letters, numbers, underscores, and hyphens")).2)
    else
      let fullId := systemId ++ "." ++ clientId
      match mapLookup st.clientMap fullId with
      | some existingConnectionId =>
        if existingConnectionId ≠ connectionId && mapHas st.clients existingConnectionId then
          (st, (sendToClient st connectionId (Frame.errorMsg
            ("Client ID " ++ fullId ++ " is already registered. Choose a different ID."))).2)
        else
          registerFinish { st with clientMap := mapDelete st.clientMap fullId }
            connectionId systemId clientId fullId
      | none => registerFinish st connectionId systemId clientId fullId

/-- A decoded inbound frame after `JSON.parse`, as dispatched on by
`TCPServer.processMessage`; optional fields keep their
presence/emptiness so JS truthiness checks are faithful. -/
inductive ClientMsg where
  | register (systemId clientId : Option String)
  | message (content : Option String)
  | privateMsg (target content : Option String)
  | listClients
  | ping
  | unknown (t : String)
deriving Repr, DecidableEq

/-- Embeds the dispatch switch of `TCPServer.processMessage` (the
post-parse part: field presence checks, registration guard, and the
per-type handlers). -/
def processMessage (st : ServerState) (connectionId : String) (parsed : ClientMsg) :
    ServerState × List (String × Frame) :=
  match mapLookup st.clients connectionId with
  | none => (st, [])
  | some client =>
    match parsed with
    | ClientMsg.register systemId clientId =>
      if !(present systemId && present clientId) then
        (st, (sendToClient st connectionId (Frame.errorMsg
          "systemId and clientId are required for registration")).2)
      else
        registerClient st connectionId (jsStr systemId) (jsStr clientId)
    | ClientMsg.message content =>
      if !client.registered then
        (st, (sendToClient st connectionId (Frame.errorMsg
          "You must register before sending messages")).2)
      else if !(present content) then
        (st, (sendToClient st connectionId (Frame.errorMsg
          "Message content is required")).2)
      else
        (st, (broadcastMessage st
          (Frame.chatMessage (jsStr client.systemId ++ "." ++ jsStr client.clientId)
            (jsStr content))
          (some connectionId)).2)
    | ClientMsg.privateMsg target content =>
      if !client.registered then
        (st, (sendToClient st connectionId (Frame.errorMsg
          "You must register before sending messages")).2)
      else if !(present target && present content) then
        (st, (sendToClient st connectionId (Frame.errorMsg
          "target and content are required for private messages")).2)
      else
        (st, sendPrivateMessage st connectionId
          (jsStr client.systemId ++ "." ++ jsStr client.clientId)
          (jsStr target) (jsStr content))
    | ClientMsg.listClients =>
      if !client.registered then
        (st, (sendToClient st connectionId (Frame.errorMsg
          "You must register before listing clients")).2)
      else
        (st, sendClientList st connectionId)
    | ClientMsg.ping =>
      (st, (sendToClient st connectionId Frame.pong).2)
    | ClientMsg.unknown t =>
      (st, (sendToClient st connectionId (Frame.errorMsg
        ("Unknown message type: " ++ t))).2)

/-- The `while ((newlineIndex = client.buffer.indexOf('\n')) !== -1)` loop
of `TCPServer.handleClientData`: repeatedly split off the prefix before
the first newline, keeping the suffix after the last newline. -/
def splitFrames : List Char → List (List Char) × List Char
  | [] => ([], [])
  | c :: rest =>
    if c = '\n' then
      let r := splitFrames rest
      ([] :: r.1, r.2)
    else
      let r := splitFrames rest
      match r.1 with
      | [] => ([], c :: r.2)
      | f :: fs => ((c :: f) :: fs, r.2)

/-- Reassembles a buffer from extracted frames and the retained tail:
each frame followed by the newline that terminated it. -/
def rejoin : List (List Char) → List Char → List Char
  | [], rem => rem
  | f :: fs, rem => f ++ '\n' :: rejoin fs rem

/-- String-level frame extraction: complete newline-terminated frames (in
order, newline excluded) and the retained partial tail. -/
def extractFrames (buffer : String) : List String × String :=
  let r := splitFrames buffer.toList
  (r.1.map (fun l => String.mk l), String.mk r.2)

/-- Embeds `TCPServer.handleClientData`.  The recursive hand-off of each
complete frame to `processMessage` is represented by returning the list
of dispatched frames (each extracted frame is trimmed and dropped if
empty, exactly as the loop body does); the write trace holds the overflow
`error` when the retained buffer exceeds 10,000 units, in which case the
buffer is cleared.  The connection is never removed here. -/
def handleClientData (st : ServerState) (connectionId data : String) :
    ServerState × List String × List (String × Frame) :=
  match mapLookup st.clients connectionId with
  | none => (st, [], [])
  | some client =>
    let buf := client.buffer ++ data
    let r := extractFrames buf
    let dispatched := (r.1.map String.trim).filter (fun m => m ≠ "")
    if r.2.length > 10000 then
      let st1 : ServerState :=
        { st with clients := mapUpdate st.clients connectionId (fun c => { c with buffer := "" }) }
      (st1, dispatched,
        (sendToClient st1 connectionId (Frame.errorMsg "Message too large or malformed")).2)
    else
      ({ st with clients := mapUpdate st.clients connectionId (fun c => { c with buffer := r.2 }) },
        dispatched, [])

/-- Embeds `TCPServer.handleClientDisconnect`: if the record was
registered, its current full identity is deleted from the map and
`client_left` is broadcast to the other registered connections (the
departing record is still iterated but excluded); the record is then
removed. -/
def handleClientDisconnect (st : ServerState) (connectionId : String) :
    ServerState × List (String × Frame) :=
  match mapLookup st.clients connectionId with
  | none => (st, [])
  | some client =>
    if client.registered then
      let fullId := jsStr client.systemId ++ "." ++ jsStr client.clientId
      let st1 : ServerState := { st with clientMap := mapDelete st.clientMap fullId }
      let out := (broadcastMessage st1
        (Frame.clientLeft (jsStr client.systemId) (jsStr client.clientId) fullId)
        (some connectionId)).2
      ({ clients := mapDelete st1.clients connectionId, clientMap := st1.clientMap }, out)
    else
      ({ st with clients := mapDelete st.clients connectionId }, [])

/-- Embeds `TCPServer.stop` (the registry part): broadcast
`server_shutdown` (note: via `broadcastMessage`, hence only to registered
connections), then clear both maps.  Socket `end`/server close are IO
effects outside the state model. -/
def stop (st : ServerState) : ServerState × List (String × Frame) :=
  let out := (broadcastMessage st Frame.serverShutdown none).2
  ({ clients := [], clientMap := [] }, out)

/-! ### Concrete test fixtures used to instantiate the theorems -/

/-- A registered, writable connection with identity `s.a`. -/
def regRecA : ClientRecord :=
  { systemId := some "s", clientId := some "a", registered := true, buffer := "", writable := true }

/-- A registered, writable connection with identity `s.b`. -/
def regRecB : ClientRecord :=
  { systemId := some "s", clientId := some "b", registered := true, buffer := "", writable := true }

/-- A connection that has not registered. -/
def unregRecU : ClientRecord :=
  { systemId := none, clientId := none, registered := false, buffer := "", writable := true }

/-- Two registered connections plus one unregistered one. -/
def testState : ServerState :=
  { clients := [("a", regRecA), ("b", regRecB), ("u", unregRecU)],
    clientMap := [("s.a", "a"), ("s.b", "b")] }

/-- A lone unregistered connection (for the shutdown broadcast). -/
def loneUnregState : ServerState :=
  { clients := [("u", unregRecU)], clientMap := [] }

/-- 10,001 bytes with no newline. -/
def bigChunk : String := String.mk (List.replicate 10001 'a')

/-- A lone connection with an empty buffer (for the buffering claims). -/
def bufState : ServerState :=
  { clients := [("c1", unregRecU)], clientMap := [] }

/-! ### Helper lemmas about the map operations -/

theorem mapLookup_mapSet {α : Type} (l : List (String × α)) (k k' : String) (v : α) :
    mapLookup (mapSet l k v) k' = if k' = k then some v else mapLookup l k' := by
  induction l with
  | nil =>
    rcases eq_or_ne k k' with h | h
    · subst h; simp [mapSet, mapLookup]
    · simp [mapSet, mapLookup, h, h.symm]
  | cons p rest ih =>
    rcases eq_or_ne p.1 k with hp | hp
    · subst hp
      rcases eq_or_ne p.1 k' with h | h
      · subst h; simp [mapSet, mapLookup]
      · have h2 : ¬ k' = p.1 := fun hh => h hh.symm
        simp [mapSet, mapLookup, h, h2]
    · rcases eq_or_ne p.1 k' with h | h
      · subst h
        have h2 : ¬ p.1 = k := hp
        simp [mapSet, mapLookup, hp, h2]
      · simp [mapSet, mapLookup, hp, h, ih]

theorem mapLookup_mapDelete {α : Type} (l : List (String × α)) (k k' : String) :
    mapLookup (mapDelete l k) k' = if k' = k then none else mapLookup l k' := by
  induction l with
  | nil => simp [mapDelete, mapLookup]
  | cons p rest ih =>
    rcases eq_or_ne p.1 k with hp | hp
    · subst hp
      rcases eq_or_ne p.1 k' with h | h
      · subst h; simp [mapDelete, mapLookup, ih]
      · have h2 : ¬ k' = p.1 := fun hh => h hh.symm
        simp [mapDelete, mapLookup, h, h2, ih]
    · rcases eq_or_ne p.1 k' with h | h
      · subst h
        simp [mapDelete, mapLookup, hp]
      · simp [mapDelete, mapLookup, hp, h, ih]

theorem mapLookup_mapUpdate {α : Type} (l : List (String × α)) (k k' : String) (f : α → α) :
    mapLookup (mapUpdate l k f) k' =
      if k' = k then (mapLookup l k').map f else mapLookup l k' := by
  induction l with
  | nil => simp [mapUpdate, mapLookup]
  | cons p rest ih =>
    rcases eq_or_ne p.1 k with hp | hp
    · subst hp
      rcases eq_or_ne p.1 k' with h | h
      · subst h; simp [mapUpdate, mapLookup, ih]
      · have h2 : ¬ k' = p.1 := fun hh => h hh.symm
        simp [mapUpdate, mapLookup, h, h2, ih]
    · rcases eq_or_ne p.1 k' with h | h
      · subst h
        simp [mapUpdate, mapLookup, hp]
      · simp [mapUpdate, mapLookup, hp, h, ih]

theorem mapUpdate_keys {α : Type} (l : List (String × α)) (k : String) (f : α → α) :
    (mapUpdate l k f).map Prod.fst = l.map Prod.fst := by
  induction l with
  | nil => rfl
  | cons p rest ih =>
    rcases eq_or_ne p.1 k with hp | hp <;> simp [mapUpdate, hp] at ih ⊢ <;> exact ih

/-! ### The write trace of a single send and of a broadcast -/

theorem sendToClient_sent (st : ServerState) (cid : String) (msg : Frame) :
    (sendToClient st cid msg).1 = writableB st cid := by
  unfold sendToClient writableB
  cases mapLookup st.clients cid with
  | none => rfl
  | some c => by_cases h : c.writable <;> simp [h]

theorem sendToClient_trace (st : ServerState) (cid : String) (msg : Frame) :
    (sendToClient st cid msg).2 = if writableB st cid then [(cid, msg)] else [] := by
  unfold sendToClient writableB
  cases mapLookup st.clients cid with
  | none => rfl
  | some c => by_cases h : c.writable <;> simp [h]

theorem broadcastList_trace (st : ServerState) (msg : Frame) (excl : Option String)
    (l : List (String × ClientRecord)) :
    (broadcastList st msg excl l).2 =
      (l.filter (fun p => p.2.registered && (some p.1 != excl) && writableB st p.1)).map
        (fun p => (p.1, msg)) := by
  induction l with
  | nil => rfl
  | cons p rest ih =>
    cases h1 : p.2.registered <;> cases h2 : (some p.1 != excl) <;>
      cases h3 : writableB st p.1 <;>
      simp [broadcastList, List.filter_cons, h1, h2, h3, sendToClient_trace, ih]

/-! ### Frame splitting -/

theorem splitFrames_rejoin (l : List Char) :
    rejoin (splitFrames l).1 (splitFrames l).2 = l := by
  induction l with
  | nil => rfl
  | cons c rest ih =>
    by_cases h : c = '\n'
    · subst h
      have hs : splitFrames ('\n' :: rest) =
          ([] :: (splitFrames rest).1, (splitFrames rest).2) := by
        simp [splitFrames]
      rw [hs]
      simp [rejoin, ih]
    · cases hr : (splitFrames rest).1 with
      | nil =>
        have hs : splitFrames (c :: rest) = ([], c :: (splitFrames rest).2) := by
          simp [splitFrames, h, hr]
        rw [hr] at ih
        rw [hs]
        simp only [rejoin] at ih ⊢
        rw [ih]
      | cons f fs =>
        have hs : splitFrames (c :: rest) = ((c :: f) :: fs, (splitFrames rest).2) := by
          simp [splitFrames, h, hr]
        rw [hr] at ih
        rw [hs]
        simp only [rejoin, List.cons_append] at ih ⊢
        rw [ih]

theorem splitFrames_parts_no_nl (l : List Char) :
    (∀ f ∈ (splitFrames l).1, ('\n' : Char) ∉ f) ∧ ('\n' : Char) ∉ (splitFrames l).2 := by
  induction l with
  | nil => simp [splitFrames]
  | cons c rest ih =>
    by_cases h : c = '\n'
    · subst h
      simp only [splitFrames, if_pos rfl]
      exact ⟨fun f hf => by
        rcases List.mem_cons.mp hf with h1 | h1
        · subst h1; simp
        · exact ih.1 f h1, ih.2⟩
    · cases hr : (splitFrames rest).1 with
      | nil =>
        rw [hr] at ih
        simp only [splitFrames, if_neg h, hr]
        refine ⟨by simp, ?_⟩
        intro hm
        rcases List.mem_cons.mp hm with h1 | h1
        · exact h h1.symm
        · exact ih.2 h1
      | cons f fs =>
        rw [hr] at ih
        simp only [splitFrames, if_neg h, hr]
        refine ⟨fun g hg => ?_, ih.2⟩
        rcases List.mem_cons.mp hg with h1 | h1
        · subst h1
          intro hm
          rcases List.mem_cons.mp hm with h2 | h2
          · exact h h2.symm
          · exact ih.1 f (List.mem_cons_self f fs) h2
        · exact ih.1 g (List.mem_cons_of_mem f h1)

theorem splitFrames_of_no_nl (l : List Char) (h : ('\n' : Char) ∉ l) :
    splitFrames l = ([], l) := by
  induction l with
  | nil => rfl
  | cons c rest ih =>
    have hc : ¬ c = '\n' := fun hh => h (hh ▸ List.mem_cons_self c rest)
    have hrest : ('\n' : Char) ∉ rest := fun hh => h (List.mem_cons_of_mem c hh)
    simp [splitFrames, hc, ih hrest]

/-! ### Further shared lemmas -/

theorem mapLookup_of_nodup {α : Type} (l : List (String × α)) (p : String × α)
    (hnd : (l.map Prod.fst).Nodup) (hp : p ∈ l) : mapLookup l p.1 = some p.2 := by
  induction l with
  | nil => cases hp
  | cons q rest ih =>
    rcases List.mem_cons.mp hp with h | h
    · subst h; simp [mapLookup]
    · have hmem : p.1 ∈ rest.map Prod.fst := List.mem_map_of_mem Prod.fst h
      have hq : q.1 ≠ p.1 := by
        intro hh
        rw [← hh] at hmem
        exact (List.nodup_cons.mp (by simpa using hnd)).1 hmem
      simp only [mapLookup, if_neg hq]
      exact ih (List.nodup_cons.mp (by simpa using hnd)).2 h

theorem mem_keys_of_mapLookup {α : Type} (l : List (String × α)) (k : String) (v : α)
    (h : mapLookup l k = some v) : k ∈ l.map Prod.fst := by
  induction l with
  | nil => simp [mapLookup] at h
  | cons q rest ih =>
    by_cases hq : q.1 = k
    · simp [hq]
    · simp only [mapLookup, if_neg hq] at h
      simp [ih h]

theorem detailFor_fullId (st : ServerState) (x : String) :
    (detailFor st x).fullId = x := by
  unfold detailFor
  split
  · rfl
  · split <;> rfl

theorem clientDetailsOf_fullId (st : ServerState) (l : List String) :
    (clientDetailsOf st l).map ClientDetail.fullId = l := by
  induction l with
  | nil => rfl
  | cons x xs ih =>
    simp only [clientDetailsOf, List.map_cons] at ih ⊢
    rw [detailFor_fullId, ih]

theorem writableB_clientMap (st : ServerState) (m : List (String × String)) (cid : String) :
    writableB { st with clientMap := m } cid = writableB st cid := rfl

theorem map_mk_toList (fs : List (List Char)) :
    (fs.map (fun l => String.mk l)).map String.toList = fs := by
  induction fs with
  | nil => rfl
  | cons f rest ih =>
    show f :: (rest.map (fun l => String.mk l)).map String.toList = f :: rest
    rw [ih]

theorem extractFrames_toList (buffer : String) :
    (extractFrames buffer).1.map String.toList = (splitFrames buffer.toList).1 ∧
    (extractFrames buffer).2.toList = (splitFrames buffer.toList).2 := by
  unfold extractFrames
  exact ⟨map_mk_toList _, rfl⟩

theorem extractFrames_of_no_nl (buffer : String) (h : ('\n' : Char) ∉ buffer.toList) :
    extractFrames buffer = ([], buffer) := by
  unfold extractFrames
  rw [splitFrames_of_no_nl buffer.toList h]
  rfl

theorem extractFrames_replicate (n : Nat) :
    extractFrames (String.mk (List.replicate n 'a')) =
      ([], String.mk (List.replicate n 'a')) := by
  apply extractFrames_of_no_nl
  intro h
  have := List.eq_of_mem_replicate (show ('\n' : Char) ∈ List.replicate n 'a' from h)
  exact absurd this (by decide)

/-! ### C1: private delivery and conditional confirmation -/

/-- C1: for a `private_message` whose target resolves to a live connection
other than the sender, the server writes the `private_message` frame to
the target first; the `private_sent` confirmation to the sender happens
if and only if that delivery write succeeded, and a successful delivery
yields exactly one `private_message` (to the target) and exactly one
`private_sent` (to the sender), in that order. -/
theorem c1_private_delivery
    (st : ServerState) (senderConn senderFullId targetFullId content tconn : String)
    (tclient sclient : ClientRecord)
    (hres : mapLookup st.clientMap targetFullId = some tconn)
    (ht : mapLookup st.clients tconn = some tclient)
    (hs : mapLookup st.clients senderConn = some sclient)
    (hne : senderFullId ≠ targetFullId) :
    (tclient.writable = true → sclient.writable = true →
      sendPrivateMessage st senderConn senderFullId targetFullId content =
        [(tconn, Frame.privateMessage senderFullId content),
         (senderConn, Frame.privateSent targetFullId content)]) ∧
    (tclient.writable = true → sclient.writable = false →
      sendPrivateMessage st senderConn senderFullId targetFullId content =
        [(tconn, Frame.privateMessage senderFullId content)]) ∧
    (tclient.writable = false →
      sendPrivateMessage st senderConn senderFullId targetFullId content = []) := by
  have hhas : mapHas st.clients tconn = true := by simp [mapHas, ht]
  refine ⟨?_, ?_, ?_⟩
  · intro h1 h2
    simp [sendPrivateMessage, hres, hhas, hne, sendToClient, ht, hs, h1, h2]
  · intro h1 h2
    simp [sendPrivateMessage, hres, hhas, hne, sendToClient, ht, hs, h1, h2]
  · intro h1
    simp [sendPrivateMessage, hres, hhas, hne, sendToClient, ht, h1]

/-- Witness for C1 at a concrete two-client state. -/
theorem c1_private_delivery_witness :
    sendPrivateMessage testState "a" "s.a" "s.b" "hi" =
      [("b", Frame.privateMessage "s.a" "hi"),
       ("a", Frame.privateSent "s.b" "hi")] :=
  (c1_private_delivery testState "a" "s.a" "s.b" "hi" "b" regRecB regRecA
    rfl rfl rfl (by decide)).1 rfl rfl

/-! ### C4: private-message error paths -/

/-- C4: a `private_message` whose target does not resolve to a live
connection yields exactly one "not found or offline" `error` to the
sender and no other write; one addressed to the sender's own (live,
mapped) full identity yields exactly one "cannot message yourself"
`error` and no delivery attempt. -/
theorem c4_private_error_paths
    (st : ServerState) (senderConn senderFullId targetFullId content : String)
    (sclient : ClientRecord)
    (hs : mapLookup st.clients senderConn = some sclient)
    (hw : sclient.writable = true) :
    ((∀ tc, mapLookup st.clientMap targetFullId = some tc →
        mapLookup st.clients tc = none) →
      sendPrivateMessage st senderConn senderFullId targetFullId content =
        [(senderConn,
          Frame.errorMsg ("Client " ++ targetFullId ++ " not found or offline"))]) ∧
    (targetFullId = senderFullId →
      ∀ tc tclient, mapLookup st.clientMap targetFullId = some tc →
        mapLookup st.clients tc = some tclient →
        sendPrivateMessage st senderConn senderFullId targetFullId content =
          [(senderConn, Frame.errorMsg "Cannot send private message to yourself")]) := by
  constructor
  · intro hdead
    cases hm : mapLookup st.clientMap targetFullId with
    | none => simp [sendPrivateMessage, hm, sendToClient, hs, hw]
    | some tc =>
      have hnone := hdead tc hm
      simp [sendPrivateMessage, hm, mapHas, hnone, sendToClient, hs, hw]
  · intro hself tc tclient hm hl
    have hhas : mapHas st.clients tc = true := by simp [mapHas, hl]
    simp [sendPrivateMessage, hm, hhas, hself.symm, sendToClient, hs, hw]

/-- Witness for C4: a private message to an unmapped identity. -/
theorem c4_private_error_paths_witness :
    sendPrivateMessage testState "a" "s.a" "s.zz" "hi" =
      [("a", Frame.errorMsg ("Client " ++ "s.zz" ++ " not found or offline"))] :=
  (c4_private_error_paths testState "a" "s.a" "s.zz" "hi" regRecA rfl rfl).1
    (fun tc h => absurd h (by simp [testState, mapLookup]))

/-! ### C2: registration validation, duplicates, and idempotent re-register -/

/-- C2: a `register` with an identity outside `[A-Za-z0-9_-]+` (including
the empty string) fails with an error and changes neither the connection
record nor the Identity Map; a full identity already mapped to a
different live connection fails with the duplicate error and leaves the
map unchanged; otherwise (fresh identity, the same connection
re-registering, or a stale mapping) registration succeeds: the record's
identity and `registered` flag are set, the mapping is inserted, and no
other identity's routing or other connection's record changes. -/
theorem c2_register
    (st : ServerState) (connectionId systemId clientId : String) (client : ClientRecord)
    (hcl : mapLookup st.clients connectionId = some client)
    (hw : client.writable = true) :
    ((isValidId systemId && isValidId clientId) = false →
      registerClient st connectionId systemId clientId =
        (st, [(connectionId, Frame.errorMsg
          "systemId and clientId can only contain letters, numbers, underscores, and hyphens")])) ∧
    ((isValidId systemId && isValidId clientId) = true →
      ∀ ex, mapLookup st.clientMap (systemId ++ "." ++ clientId) = some ex →
        ex ≠ connectionId → mapHas st.clients ex = true →
        registerClient st connectionId systemId clientId =
          (st, [(connectionId, Frame.errorMsg
            ("Client ID " ++ (systemId ++ "." ++ clientId) ++
              " is already registered. Choose a different ID."))])) ∧
    ((isValidId systemId && isValidId clientId) = true →
      (∀ ex, mapLookup st.clientMap (systemId ++ "." ++ clientId) = some ex →
        ex = connectionId ∨ mapHas st.clients ex = false) →
      mapLookup (registerClient st connectionId systemId clientId).1.clients connectionId =
        some { client with systemId := some systemId, clientId := some clientId, registered := true } ∧
      mapLookup (registerClient st connectionId systemId clientId).1.clientMap
          (systemId ++ "." ++ clientId) = some connectionId ∧
      (∀ f, f ≠ systemId ++ "." ++ clientId →
        mapLookup (registerClient st connectionId systemId clientId).1.clientMap f =
          mapLookup st.clientMap f) ∧
      (∀ cid, cid ≠ connectionId →
        mapLookup (registerClient st connectionId systemId clientId).1.clients cid =
          mapLookup st.clients cid)) := by
  refine ⟨?_, ?_, ?_⟩
  · intro hv
    simp [registerClient, hcl, hv, sendToClient, hw]
  · intro hv ex hex hne hhas
    simp [registerClient, hcl, hv, hex, hne, hhas, sendToClient, hw]
  · intro hv hblock
    have hst1 : (registerClient st connectionId systemId clientId).1.clients =
        mapUpdate st.clients connectionId (fun c =>
          { c with systemId := some systemId, clientId := some clientId, registered := true }) ∧
        (mapLookup (registerClient st connectionId systemId clientId).1.clientMap
            (systemId ++ "." ++ clientId) = some connectionId ∧
          ∀ f, f ≠ systemId ++ "." ++ clientId →
            mapLookup (registerClient st connectionId systemId clientId).1.clientMap f =
              mapLookup st.clientMap f) := by
      cases hex : mapLookup st.clientMap (systemId ++ "." ++ clientId) with
      | none =>
        refine ⟨by simp [registerClient, hcl, hv, hex, registerFinish], ?_, ?_⟩
        · simp [registerClient, hcl, hv, hex, registerFinish, mapLookup_mapSet]
        · intro f hf
          simp [registerClient, hcl, hv, hex, registerFinish, mapLookup_mapSet, hf]
      | some ex =>
        have hcond : ¬(¬ex = connectionId ∧ mapHas st.clients ex = true) := by
          rcases hblock ex hex with h | h
          · exact fun hc => hc.1 h
          · exact fun hc => by rw [h] at hc; exact Bool.false_ne_true hc.2
        refine ⟨by simp [registerClient, hcl, hv, hex, hcond, registerFinish], ?_, ?_⟩
        · simp [registerClient, hcl, hv, hex, hcond, registerFinish, mapLookup_mapSet]
        · intro f hf
          simp [registerClient, hcl, hv, hex, hcond, registerFinish, mapLookup_mapSet,
            mapLookup_mapDelete, hf]
    refine ⟨?_, hst1.2.1, hst1.2.2, ?_⟩
    · rw [hst1.1, mapLookup_mapUpdate]
      simp [hcl]
    · intro cid hcid
      rw [hst1.1, mapLookup_mapUpdate]
      simp [hcid]

/-- Witness for C2: a fresh registration on a concrete state. -/
theorem c2_register_witness :
    mapLookup (registerClient testState "u" "s" "u").1.clients "u" =
      some { unregRecU with systemId := some "s", clientId := some "u", registered := true } ∧
    mapLookup (registerClient testState "u" "s" "u").1.clientMap "s.u" = some "u" :=
  let h := (c2_register testState "u" "s" "u" unregRecU rfl rfl).2.2 (by decide)
    (fun ex hex => absurd hex (by simp [testState, mapLookup]))
  ⟨h.1, h.2.1⟩

/-! ### C10: re-registering a new identity leaves the old mapping behind -/

/-- C10: when a connection already mapped under full identity `F1`
successfully registers a fresh, different full identity `F2`, the stale
entry `F1 -> connection` survives: both identities resolve to the same
connection, `F1` still appears in the sorted listing, and a private
message from another identity addressed to `F1` is delivered to the
connection whose current identity is `F2`. -/
theorem c10_stale_identity
    (st : ServerState) (conn s1 c1 s2 c2 : String) (client : ClientRecord)
    (hcl : mapLookup st.clients conn = some client)
    (hmap1 : mapLookup st.clientMap (s1 ++ "." ++ c1) = some conn)
    (hvalid : (isValidId s2 && isValidId c2) = true)
    (hfresh : mapLookup st.clientMap (s2 ++ "." ++ c2) = none)
    (hne : s1 ++ "." ++ c1 ≠ s2 ++ "." ++ c2)
    (hwr : client.writable = true) :
    mapLookup (registerClient st conn s2 c2).1.clientMap (s1 ++ "." ++ c1) = some conn ∧
    mapLookup (registerClient st conn s2 c2).1.clientMap (s2 ++ "." ++ c2) = some conn ∧
    mapLookup (registerClient st conn s2 c2).1.clients conn =
      some { client with systemId := some s2, clientId := some c2, registered := true } ∧
    (s1 ++ "." ++ c1) ∈ sortedKeys (registerClient st conn s2 c2).1.clientMap ∧
    (∀ senderConn senderFullId content, senderFullId ≠ s1 ++ "." ++ c1 →
      ∃ rest, sendPrivateMessage (registerClient st conn s2 c2).1
          senderConn senderFullId (s1 ++ "." ++ c1) content =
        (conn, Frame.privateMessage senderFullId content) :: rest) := by
  have hm1 : mapLookup (registerClient st conn s2 c2).1.clientMap (s1 ++ "." ++ c1) =
      some conn := by
    simp [registerClient, hcl, hvalid, hfresh, registerFinish, mapLookup_mapSet, hne, hmap1]
  have hm2 : mapLookup (registerClient st conn s2 c2).1.clientMap (s2 ++ "." ++ c2) =
      some conn := by
    simp [registerClient, hcl, hvalid, hfresh, registerFinish, mapLookup_mapSet]
  have hrec : mapLookup (registerClient st conn s2 c2).1.clients conn =
      some { client with systemId := some s2, clientId := some c2, registered := true } := by
    simp [registerClient, hcl, hvalid, hfresh, registerFinish, mapLookup_mapUpdate]
  refine ⟨hm1, hm2, hrec, ?_, ?_⟩
  · have hk : (s1 ++ "." ++ c1) ∈ (registerClient st conn s2 c2).1.clientMap.map Prod.fst :=
      mem_keys_of_mapLookup _ _ _ hm1
    unfold sortedKeys
    exact ((List.mergeSort_perm _ _).mem_iff).mpr hk
  · intro senderConn senderFullId content hsne
    have hhas : mapHas (registerClient st conn s2 c2).1.clients conn = true := by
      simp [mapHas, hrec]
    refine ⟨(sendToClient (registerClient st conn s2 c2).1 senderConn
        (Frame.privateSent (s1 ++ "." ++ c1) content)).2, ?_⟩
    simp [sendPrivateMessage, hm1, hhas, hsne, sendToClient, hrec, hwr]

/-- Witness for C10: `a` (currently `s.a`) registers the fresh identity
`t.x`; `s.a` still routes to connection `a`. -/
theorem c10_stale_identity_witness :
    mapLookup (registerClient testState "a" "t" "x").1.clientMap "s.a" = some "a" ∧
    mapLookup (registerClient testState "a" "t" "x").1.clientMap "t.x" = some "a" :=
  let h := c10_stale_identity testState "a" "s" "a" "t" "x" regRecA rfl rfl (by decide)
    (by simp [testState, mapLookup]) (by decide) rfl
  ⟨h.1, h.2.1⟩

/-! ### C3: broadcast reaches exactly the other registered connections -/

/-- C3: a `message` frame with non-empty content from a registered
connection `A` produces a `chat_message` write for exactly the registered
connections other than `A` whose socket accepts the write — never for `A`
itself and never for an unregistered connection, each at most once — and
leaves the state unchanged; missing or empty content yields a single
`error` to `A` and no delivery. -/
theorem c3_broadcast_message
    (st : ServerState) (connA : String) (aclient : ClientRecord)
    (hA : mapLookup st.clients connA = some aclient)
    (hreg : aclient.registered = true)
    (hnd : (st.clients.map Prod.fst).Nodup) :
    (∀ c : String, c ≠ "" →
      (processMessage st connA (ClientMsg.message (some c))).1 = st ∧
      (processMessage st connA (ClientMsg.message (some c))).2 =
        (st.clients.filter
          (fun p => p.2.registered && (some p.1 != some connA) && writableB st p.1)).map
          (fun p => (p.1,
            Frame.chatMessage (jsStr aclient.systemId ++ "." ++ jsStr aclient.clientId) c)) ∧
      (∀ e ∈ (processMessage st connA (ClientMsg.message (some c))).2, e.1 ≠ connA) ∧
      (∀ e ∈ (processMessage st connA (ClientMsg.message (some c))).2,
        ∃ r, mapLookup st.clients e.1 = some r ∧ r.registered = true) ∧
      (∀ p ∈ st.clients, p.2.registered = true → p.1 ≠ connA → writableB st p.1 = true →
        (p.1, Frame.chatMessage (jsStr aclient.systemId ++ "." ++ jsStr aclient.clientId) c) ∈
          (processMessage st connA (ClientMsg.message (some c))).2) ∧
      ((processMessage st connA (ClientMsg.message (some c))).2.map Prod.fst).Nodup) ∧
    (aclient.writable = true →
      ∀ mc : Option String, present mc = false →
        processMessage st connA (ClientMsg.message mc) =
          (st, [(connA, Frame.errorMsg "Message content is required")])) := by
  constructor
  · intro c hc
    have hout : (processMessage st connA (ClientMsg.message (some c))).2 =
        (st.clients.filter
          (fun p => p.2.registered && (some p.1 != some connA) && writableB st p.1)).map
          (fun p => (p.1,
            Frame.chatMessage (jsStr aclient.systemId ++ "." ++ jsStr aclient.clientId) c)) := by
      simp [processMessage, hA, hreg, present, hc, jsStr, broadcastMessage,
        broadcastList_trace]
    refine ⟨by simp [processMessage, hA, hreg, present, hc], hout, ?_, ?_, ?_, ?_⟩
    · intro e he
      rw [hout] at he
      rcases List.mem_map.mp he with ⟨p, hp, rfl⟩
      have hcond := List.of_mem_filter hp
      simp only [Bool.and_eq_true, bne_iff_ne, ne_eq, Option.some.injEq] at hcond
      exact hcond.1.2
    · intro e he
      rw [hout] at he
      rcases List.mem_map.mp he with ⟨p, hp, rfl⟩
      have hcond := List.of_mem_filter hp
      simp only [Bool.and_eq_true] at hcond
      exact ⟨p.2, mapLookup_of_nodup st.clients p hnd (List.mem_of_mem_filter hp),
        hcond.1.1⟩
    · intro p hp hr hne hwp
      rw [hout]
      refine List.mem_map.mpr ⟨p, List.mem_filter.mpr ⟨hp, ?_⟩, rfl⟩
      simp [hr, hne, hwp]
    · rw [hout]
      have hsub : ((st.clients.filter
            (fun p => p.2.registered && (some p.1 != some connA) && writableB st p.1)).map
            Prod.fst).Sublist (st.clients.map Prod.fst) :=
        (List.filter_sublist _).map Prod.fst
      have := hnd.sublist hsub
      simpa [List.map_map, Function.comp] using this
  · intro hwa mc hmc
    simp [processMessage, hA, hreg, hmc, sendToClient, hwa]

/-- Witness for C3: `a` broadcasts; only `b` (registered, not the
sender, writable) receives the `chat_message`. -/
theorem c3_broadcast_message_witness :
    (processMessage testState "a" (ClientMsg.message (some "hello"))).2 =
      [("b", Frame.chatMessage "s.a" "hello")] := by
  have h := ((c3_broadcast_message testState "a" regRecA rfl rfl (by decide)).1
    "hello" (by decide)).2.1
  rw [h]
  decide

/-! ### C7: the client_list reply -/

/-- C7: the `client_list` reply to a registered connection carries the
mapped full identities, lexicographically sorted, with `count` equal to
the length of the `clients` sequence and one `{fullId, systemId,
clientId}` detail record per listed identity. -/
theorem c7_client_list
    (st : ServerState) (connA : String) (aclient : ClientRecord)
    (hA : mapLookup st.clients connA = some aclient)
    (hreg : aclient.registered = true)
    (hw : aclient.writable = true) :
    (processMessage st connA ClientMsg.listClients).2 =
      [(connA, Frame.clientList (sortedKeys st.clientMap)
        (clientDetailsOf st (sortedKeys st.clientMap))
        (sortedKeys st.clientMap).length)] ∧
    List.Sorted (· ≤ ·) (sortedKeys st.clientMap) ∧
    (sortedKeys st.clientMap).Perm (st.clientMap.map Prod.fst) ∧
    (clientDetailsOf st (sortedKeys st.clientMap)).map ClientDetail.fullId =
      sortedKeys st.clientMap ∧
    (clientDetailsOf st (sortedKeys st.clientMap)).length =
      (sortedKeys st.clientMap).length := by
  refine ⟨?_, ?_, ?_, clientDetailsOf_fullId st _, ?_⟩
  · simp [processMessage, hA, hreg, sendClientList, sendToClient, hw]
  · exact List.sorted_mergeSort' _
  · exact List.mergeSort_perm _ _
  · simp [clientDetailsOf]

unseal List.merge List.mergeSort String.ltb in
/-- Witness for C7 at a concrete state: two sorted identities, count 2. -/
theorem c7_client_list_witness :
    (processMessage testState "a" ClientMsg.listClients).2 =
      [("a", Frame.clientList ["s.a", "s.b"]
        [{ fullId := "s.a", systemId := some "s", clientId := some "a" },
         { fullId := "s.b", systemId := some "s", clientId := some "b" }] 2)] := by
  have h := (c7_client_list testState "a" regRecA rfl rfl rfl).1
  rw [h]
  have hk : sortedKeys testState.clientMap = ["s.a", "s.b"] := by decide
  rw [hk]
  decide

/-! ### C8: disconnect removes the connection and notifies peers -/

/-- C8: disconnecting a registered connection removes it from the
connection set, removes its current full identity from the Identity Map
(other identities untouched), and emits one `client_left` write for each
remaining registered connection whose socket accepts the write; an
unregistered connection's disconnect removes it and notifies nobody. -/
theorem c8_disconnect
    (st : ServerState) (connectionId : String) (client : ClientRecord)
    (hcl : mapLookup st.clients connectionId = some client) :
    (client.registered = true →
      mapLookup (handleClientDisconnect st connectionId).1.clients connectionId = none ∧
      mapLookup (handleClientDisconnect st connectionId).1.clientMap
        (jsStr client.systemId ++ "." ++ jsStr client.clientId) = none ∧
      (∀ f, f ≠ jsStr client.systemId ++ "." ++ jsStr client.clientId →
        mapLookup (handleClientDisconnect st connectionId).1.clientMap f =
          mapLookup st.clientMap f) ∧
      (handleClientDisconnect st connectionId).2 =
        (st.clients.filter
          (fun p => p.2.registered && (some p.1 != some connectionId) && writableB st p.1)).map
          (fun p => (p.1, Frame.clientLeft (jsStr client.systemId) (jsStr client.clientId)
            (jsStr client.systemId ++ "." ++ jsStr client.clientId))) ∧
      ((st.clients.map Prod.fst).Nodup →
        (((handleClientDisconnect st connectionId).2.map Prod.fst).Nodup ∧
        ∀ e ∈ (handleClientDisconnect st connectionId).2, e.1 ≠ connectionId)) ∧
      (∀ p ∈ st.clients, p.2.registered = true → p.1 ≠ connectionId →
        writableB st p.1 = true →
        (p.1, Frame.clientLeft (jsStr client.systemId) (jsStr client.clientId)
          (jsStr client.systemId ++ "." ++ jsStr client.clientId)) ∈
          (handleClientDisconnect st connectionId).2)) ∧
    (client.registered = false →
      handleClientDisconnect st connectionId =
        ({ clients := mapDelete st.clients connectionId, clientMap := st.clientMap }, [])) := by
  constructor
  · intro hreg
    have hout : (handleClientDisconnect st connectionId).2 =
        (st.clients.filter
          (fun p => p.2.registered && (some p.1 != some connectionId) && writableB st p.1)).map
          (fun p => (p.1, Frame.clientLeft (jsStr client.systemId) (jsStr client.clientId)
            (jsStr client.systemId ++ "." ++ jsStr client.clientId))) := by
      simp only [handleClientDisconnect, hcl, hreg, if_true, broadcastMessage]
      rw [broadcastList_trace]
      simp [writableB_clientMap]
    refine ⟨?_, ?_, ?_, hout, ?_, ?_⟩
    · simp [handleClientDisconnect, hcl, hreg, mapLookup_mapDelete]
    · simp [handleClientDisconnect, hcl, hreg, mapLookup_mapDelete]
    · intro f hf
      simp [handleClientDisconnect, hcl, hreg, mapLookup_mapDelete, hf]
    · intro hnd
      constructor
      · rw [hout]
        have hsub : ((st.clients.filter (fun p =>
              p.2.registered && (some p.1 != some connectionId) && writableB st p.1)).map
              Prod.fst).Sublist (st.clients.map Prod.fst) :=
          (List.filter_sublist _).map Prod.fst
        have := hnd.sublist hsub
        simpa [List.map_map, Function.comp] using this
      · intro e he
        rw [hout] at he
        rcases List.mem_map.mp he with ⟨p, hp, rfl⟩
        have hcond := List.of_mem_filter hp
        simp only [Bool.and_eq_true, bne_iff_ne, ne_eq, Option.some.injEq] at hcond
        exact hcond.1.2
    · intro p hp hr hne hwp
      rw [hout]
      refine List.mem_map.mpr ⟨p, List.mem_filter.mpr ⟨hp, ?_⟩, rfl⟩
      simp [hr, hne, hwp]
  · intro hreg
    simp [handleClientDisconnect, hcl, hreg]

/-- Witness for C8: disconnecting registered `a` removes it and its
identity and notifies `b` exactly once. -/
theorem c8_disconnect_witness :
    mapLookup (handleClientDisconnect testState "a").1.clients "a" = none ∧
    mapLookup (handleClientDisconnect testState "a").1.clientMap "s.a" = none ∧
    (handleClientDisconnect testState "a").2 =
      [("b", Frame.clientLeft "s" "a" "s.a")] := by
  have h := (c8_disconnect testState "a" regRecA rfl).1 rfl
  refine ⟨h.1, ?_, ?_⟩
  · have := h.2.1
    simpa [regRecA, jsStr] using this
  · rw [h.2.2.2.1]
    decide

/-! ### C9: shutdown notice (sent only to registered connections) -/

/-- C9 counterexample: `stop` routes the `server_shutdown` notice through
`broadcastMessage`, which skips unregistered connections, so a live
unregistered connection receives nothing — refuting the claim that every
connection in the Registry is notified. -/
theorem c9_shutdown_counterexample :
    mapLookup loneUnregState.clients "u" = some unregRecU ∧
    unregRecU.writable = true ∧
    (stop loneUnregState).2 = [] := by
  refine ⟨rfl, rfl, ?_⟩
  decide

/-- C9 (amended): `stop` emits the `server_shutdown` notice exactly to
the registered connections whose socket accepts the write (unregistered
connections receive nothing), then clears both the connection set and
the Identity Map. -/
theorem c9_shutdown :
    ∀ st : ServerState,
      (stop st).1.clients = [] ∧ (stop st).1.clientMap = [] ∧
      (stop st).2 = (st.clients.filter
          (fun p => p.2.registered && writableB st p.1)).map
          (fun p => (p.1, Frame.serverShutdown)) := by
  intro st
  refine ⟨rfl, rfl, ?_⟩
  have hfil : st.clients.filter
      (fun p => p.2.registered && (some p.1 != (none : Option String)) && writableB st p.1) =
      st.clients.filter (fun p => p.2.registered && writableB st p.1) := by
    apply List.filter_congr
    intro p hp
    cases p.2.registered <;> cases writableB st p.1 <;> rfl
  show (broadcastMessage st Frame.serverShutdown none).2 = _
  rw [broadcastMessage, broadcastList_trace, hfil]

/-! ### C5: newline framing -/

/-- C5: appending a chunk to a connection's buffer extracts, in order,
exactly the newline-free substrings preceding each `\n` (the buffer
reassembles from the extracted frames and the retained tail), dispatches
exactly those frames (trimmed, blanks skipped), and retains the trailing
partial frame; a buffer with no newline dispatches nothing and, below
the overflow ceiling, produces no reply and stays pending. -/
theorem c5_frame_extraction
    (st : ServerState) (connectionId data : String) (client : ClientRecord)
    (hcl : mapLookup st.clients connectionId = some client) :
    rejoin ((extractFrames (client.buffer ++ data)).1.map String.toList)
        (extractFrames (client.buffer ++ data)).2.toList = (client.buffer ++ data).toList ∧
    (∀ f ∈ (extractFrames (client.buffer ++ data)).1, ('\n' : Char) ∉ f.toList) ∧
    (('\n' : Char) ∉ (extractFrames (client.buffer ++ data)).2.toList) ∧
    (handleClientData st connectionId data).2.1 =
      ((extractFrames (client.buffer ++ data)).1.map String.trim).filter (fun m => m ≠ "") ∧
    (('\n' : Char) ∉ (client.buffer ++ data).toList →
      (handleClientData st connectionId data).2.1 = [] ∧
      ((client.buffer ++ data).length ≤ 10000 →
        (handleClientData st connectionId data).2.2 = [] ∧
        mapLookup (handleClientData st connectionId data).1.clients connectionId =
          some { client with buffer := client.buffer ++ data })) := by
  have hTo := extractFrames_toList (client.buffer ++ data)
  have hparts := splitFrames_parts_no_nl (client.buffer ++ data).toList
  refine ⟨?_, ?_, ?_, ?_, ?_⟩
  · rw [hTo.1, hTo.2]
    exact splitFrames_rejoin _
  · intro f hf
    apply hparts.1 f.toList
    rw [← hTo.1]
    exact List.mem_map_of_mem String.toList hf
  · rw [hTo.2]
    exact hparts.2
  · simp [handleClientData, hcl]
    split <;> rfl
  · intro hnl
    have hex : extractFrames (client.buffer ++ data) = ([], client.buffer ++ data) :=
      extractFrames_of_no_nl _ hnl
    constructor
    · simp only [handleClientData, hcl, hex]
      split <;> simp
    · intro hlen
      have happ : (client.buffer ++ data).length = client.buffer.length + data.length :=
        String.length_append _ _
      have hcond : ¬ 10000 < client.buffer.length + data.length := by omega
      constructor
      · simp [handleClientData, hcl, hex, hcond]
      · simp [handleClientData, hcl, hex, hcond, mapLookup_mapUpdate]

/-- Witness for C5: the chunk "ping" with no newline dispatches no frame,
produces no reply, and stays pending in the buffer. -/
theorem c5_frame_extraction_witness :
    (handleClientData bufState "c1" "ping").2.1 = [] ∧
    (handleClientData bufState "c1" "ping").2.2 = [] ∧
    mapLookup (handleClientData bufState "c1" "ping").1.clients "c1" =
      some { unregRecU with buffer := unregRecU.buffer ++ "ping" } :=
  let h := (c5_frame_extraction bufState "c1" "ping" unregRecU rfl).2.2.2.2 (by decide)
  ⟨h.1, (h.2 (by decide)).1, (h.2 (by decide)).2⟩

/-! ### C6: buffer overflow -/

/-- C6: when the retained buffer exceeds 10,000 units after frame
extraction, the buffer is cleared, exactly one overflow `error` is
written to that connection, and the connection stays in the Registry
(clients entry kept, Identity Map untouched, other connections
unchanged). -/
theorem c6_overflow
    (st : ServerState) (connectionId data : String) (client : ClientRecord)
    (hcl : mapLookup st.clients connectionId = some client)
    (hw : client.writable = true)
    (hov : (extractFrames (client.buffer ++ data)).2.length > 10000) :
    mapLookup (handleClientData st connectionId data).1.clients connectionId =
      some { client with buffer := "" } ∧
    (handleClientData st connectionId data).2.2 =
      [(connectionId, Frame.errorMsg "Message too large or malformed")] ∧
    (handleClientData st connectionId data).1.clientMap = st.clientMap ∧
    (∀ cid, cid ≠ connectionId →
      mapLookup (handleClientData st connectionId data).1.clients cid =
        mapLookup st.clients cid) := by
  refine ⟨?_, ?_, ?_, ?_⟩
  · simp [handleClientData, hcl, hov, mapLookup_mapUpdate]
  · simp [handleClientData, hcl, hov, sendToClient, mapLookup_mapUpdate, hw]
  · simp [handleClientData, hcl, hov]
  · intro cid hcid
    simp [handleClientData, hcl, hov, mapLookup_mapUpdate, hcid]

/-- Witness for C6: 10,001 bytes with no newline clear the buffer and
yield one overflow error, with the connection still registered in the
connection set. -/
theorem c6_overflow_witness :
    (extractFrames (unregRecU.buffer ++ bigChunk)).2.length > 10000 ∧
    mapLookup (handleClientData bufState "c1" bigChunk).1.clients "c1" =
      some { unregRecU with buffer := "" } ∧
    (handleClientData bufState "c1" bigChunk).2.2 =
      [("c1", Frame.errorMsg "Message too large or malformed")] := by
  have hov : (extractFrames (unregRecU.buffer ++ bigChunk)).2.length > 10000 := by
    have h1 : unregRecU.buffer ++ bigChunk = bigChunk := rfl
    rw [h1]
    simp only [bigChunk, extractFrames_replicate]
    show 10000 < (List.replicate 10001 'a').length
    rw [List.length_replicate]
    omega
  have h := c6_overflow bufState "c1" bigChunk unregRecU rfl rfl hov
  exact ⟨hov, h.1, h.2.1⟩
